import Mathlib

set_option autoImplicit false

namespace PropertyResearch

/-!  Shallow embedding of the LangGraph state and reducer layer of the
property-research workflow (`src/state.py`), of the collector nodes
(`src/nodes/zola_node.py`, `src/nodes/acris_node.py`,
`src/nodes/phone_number_refiner_node.py`) and of the owner-name matcher
(`src/nodes/analyzer_node.py`).  Python dictionaries whose keys may be
absent are modelled with `Option`; the `operator.add` list channels use
plain lists, where `[]` in an update plays the role of an absent key
(appending `[]` is the identity, exactly as an unreturned key leaves the
channel untouched).  -/

/-- Channel values of the five reducer-annotated fields of
`PropertyResearchState` (src/src/state.py, lines 24-151).
`zola_owner_name` is `Optional[str]`, so its channel holds an
`Option String` (`none` models Python `None` / never written). -/
structure RState where
  address : String
  zola_owner_name : Option String
  current_step : String
  next_steps : List String
  errors : List String
  deriving DecidableEq

/-- A partial node update, restricted to the reducer-annotated fields.
A scalar field set to `none` models a key absent from the returned dict
(its reducer does not fire); for `zola_owner_name` the inner `Option`
is the written Python value, possibly `None`.  For the `operator.add`
channels an absent key behaves exactly like returning `[]`. -/
structure Update where
  address : Option String
  zola_owner_name : Option (Option String)
  current_step : Option String
  next_steps : List String
  errors : List String
  deriving DecidableEq

/-- Per-field reducer application, exactly the `Annotated` reducers of
`PropertyResearchState`: `address` and `zola_owner_name` use
`lambda x, y: x or y` (Python truthiness: the empty string and `None`
are falsy), `current_step` uses `lambda x, y: y`, and `next_steps` and
`errors` use `operator.add`.  A reducer fires only for keys present in
the update. -/
def mergeState (s : RState) (u : Update) : RState where
  address :=
    match u.address with
    | none => s.address
    | some a => if s.address = "" then a else s.address
  zola_owner_name :=
    match u.zola_owner_name with
    | none => s.zola_owner_name
    | some y =>
      match s.zola_owner_name with
      | some x => if x = "" then y else some x
      | none => y
  current_step :=
    match u.current_step with
    | none => s.current_step
    | some y => y
  next_steps := s.next_steps ++ u.next_steps
  errors := s.errors ++ u.errors

/-- C3: errors are append-only.  One merge concatenates the update's
errors after the base's, so the base list is left unchanged as a prefix
(no entry removed or reordered) and the length never decreases; folding
any sequence of node updates likewise leaves the starting errors list as
a prefix of the final one. -/
theorem errors_append_only (s : RState) (u : Update) (us : List Update) :
    (mergeState s u).errors = s.errors ++ u.errors ∧
    s.errors.length ≤ (mergeState s u).errors.length ∧
    ∃ t, (us.foldl mergeState s).errors = s.errors ++ t := by
  refine ⟨rfl, by simp [mergeState], ?_⟩
  induction us generalizing s with
  | nil => exact ⟨[], by simp⟩
  | cons v vs ih =>
    obtain ⟨t, ht⟩ := ih (mergeState s v)
    refine ⟨v.errors ++ t, ?_⟩
    simpa [mergeState, List.append_assoc] using ht

/-- C8: the address reducer `lambda x, y: x or y` is first-source-wins:
a non-empty base survives any single merge and any sequence of merges,
and an empty base adopts the update's value. -/
theorem address_first_wins (s s₀ : RState) (u : Update) (us : List Update)
    (hs : s.address ≠ "") (h₀ : s₀.address = "") :
    (mergeState s u).address = s.address ∧
    (us.foldl mergeState s).address = s.address ∧
    (∀ a, u.address = some a → (mergeState s₀ u).address = a) := by
  refine ⟨?_, ?_, ?_⟩
  · cases h : u.address with
    | none => simp [mergeState, h]
    | some a => simp [mergeState, h, hs]
  · induction us generalizing s with
    | nil => rfl
    | cons v vs ih =>
      have h1 : (mergeState s v).address = s.address := by
        cases h : v.address with
        | none => simp [mergeState, h]
        | some a => simp [mergeState, h, hs]
      have h2 : (mergeState s v).address ≠ "" := by rw [h1]; exact hs
      calc (List.foldl mergeState s (v :: vs)).address
          = (List.foldl mergeState (mergeState s v) vs).address := rfl
        _ = (mergeState s v).address := ih (mergeState s v) h2
        _ = s.address := h1
  · intro a ha
    simp [mergeState, ha, h₀]

/-- Witness for C8 at a concrete state and update. -/
theorem address_first_wins_witness :
    (mergeState ⟨"123 Main St", none, "init", [], []⟩
      ⟨some "456 Other Av", none, none, [], []⟩).address = "123 Main St" :=
  (address_first_wins ⟨"123 Main St", none, "init", [], []⟩
    ⟨"", none, "init", [], []⟩
    ⟨some "456 Other Av", none, none, [], []⟩ []
    (by decide) (by decide)).1

/-- The `address` reducer `lambda x, y: x or y` in isolation. -/
def addrRed (x : String) (y : Option String) : String :=
  match y with
  | none => x
  | some a => if x = "" then a else x

/-- The `zola_owner_name` reducer `lambda x, y: x or y` in isolation
(`Optional[str]` values, Python truthiness). -/
def zolaRed (x : Option String) (y : Option (Option String)) : Option String :=
  match y with
  | none => x
  | some z =>
    match x with
    | some s => if s = "" then z else some s
    | none => z

/-- Python truthiness of an `Optional[str]` value. -/
def optTruthy : Option String → Bool
  | none => false
  | some s => s ≠ ""

theorem mergeState_address (s : RState) (u : Update) :
    (mergeState s u).address = addrRed s.address u.address := rfl

theorem mergeState_zola (s : RState) (u : Update) :
    (mergeState s u).zola_owner_name = zolaRed s.zola_owner_name u.zola_owner_name := rfl

theorem addrRed_comm (x : String) (a c : Option String)
    (h : x ≠ "" ∨ a = none ∨ c = none) :
    addrRed (addrRed x a) c = addrRed (addrRed x c) a := by
  rcases a with _ | a
  · simp [addrRed]
  · rcases c with _ | c
    · simp [addrRed]
    · rcases h with h | h | h
      · simp [addrRed, h]
      · simp at h
      · simp at h

theorem zolaRed_comm (x : Option String) (a c : Option (Option String))
    (h : optTruthy x = true ∨ a = none ∨ c = none) :
    zolaRed (zolaRed x a) c = zolaRed (zolaRed x c) a := by
  rcases a with _ | a
  · simp [zolaRed]
  · rcases c with _ | c
    · simp [zolaRed]
    · rcases h with h | h | h
      · rcases x with _ | s
        · simp [optTruthy] at h
        · have hs : s ≠ "" := by simpa [optTruthy] using h
          simp [zolaRed, hs]
      · simp at h
      · simp at h

theorem append_append_perm (l m n : List String) :
    ((l ++ m) ++ n).Perm ((l ++ n) ++ m) := by
  rw [List.append_assoc, List.append_assoc]
  exact List.Perm.append_left l List.perm_append_comm

/-- C1 (counterexample): the claimed order-invariance fails on the
declared reducers.  Two updates that both write `current_step`
(last-wins) and both append an error produce different final states in
the two merge orders: the error lists come out in different orders and
`current_step` takes the later writer. -/
theorem merge_not_order_invariant :
    mergeState (mergeState ⟨"350 5th Ave", none, "init", [], []⟩
        ⟨none, none, some "A done", [], ["error A"]⟩)
        ⟨none, none, some "B done", [], ["error B"]⟩ ≠
    mergeState (mergeState ⟨"350 5th Ave", none, "init", [], []⟩
        ⟨none, none, some "B done", [], ["error B"]⟩)
        ⟨none, none, some "A done", [], ["error A"]⟩ := by decide

/-- C1 (amended): folding two partial updates in either order yields the
same value on every scalar channel — provided the two updates do not
both write `current_step`, and do not both write `address` (resp.
`zola_owner_name`) while the base's value is still falsy — and yields
`errors` and `next_steps` lists that are permutations of each other
(same entries, possibly in a different order).  Full equality of the
list channels in both orders does not hold in general. -/
theorem merge_order_invariant_amended (b : RState) (A B : Update)
    (hstep : A.current_step = none ∨ B.current_step = none)
    (haddr : b.address ≠ "" ∨ A.address = none ∨ B.address = none)
    (hzola : optTruthy b.zola_owner_name = true ∨
      A.zola_owner_name = none ∨ B.zola_owner_name = none) :
    (mergeState (mergeState b A) B).address
      = (mergeState (mergeState b B) A).address ∧
    (mergeState (mergeState b A) B).zola_owner_name
      = (mergeState (mergeState b B) A).zola_owner_name ∧
    (mergeState (mergeState b A) B).current_step
      = (mergeState (mergeState b B) A).current_step ∧
    ((mergeState (mergeState b A) B).errors).Perm
      ((mergeState (mergeState b B) A).errors) ∧
    ((mergeState (mergeState b A) B).next_steps).Perm
      ((mergeState (mergeState b B) A).next_steps) := by
  refine ⟨?_, ?_, ?_, ?_, ?_⟩
  · rw [mergeState_address, mergeState_address, mergeState_address,
      mergeState_address]
    exact addrRed_comm b.address A.address B.address haddr
  · rw [mergeState_zola, mergeState_zola, mergeState_zola, mergeState_zola]
    exact zolaRed_comm b.zola_owner_name A.zola_owner_name B.zola_owner_name hzola
  · rcases hstep with h | h <;> rcases hA : A.current_step with _ | a <;>
      rcases hB : B.current_step with _ | c <;>
      simp_all [mergeState]
  · exact append_append_perm b.errors A.errors B.errors
  · exact append_append_perm b.next_steps A.next_steps B.next_steps

/-- Witness for the amended C1 at concrete inputs. -/
theorem merge_order_invariant_amended_witness :
    ((mergeState (mergeState ⟨"350 5th Ave", none, "init", [], []⟩
        ⟨none, none, some "A done", ["x"], ["error A"]⟩)
        ⟨none, none, none, ["y"], ["error B"]⟩).errors).Perm
      ((mergeState (mergeState ⟨"350 5th Ave", none, "init", [], []⟩
        ⟨none, none, none, ["y"], ["error B"]⟩)
        ⟨none, none, some "A done", ["x"], ["error A"]⟩).errors) :=
  (merge_order_invariant_amended ⟨"350 5th Ave", none, "init", [], []⟩
    ⟨none, none, some "A done", ["x"], ["error A"]⟩
    ⟨none, none, none, ["y"], ["error B"]⟩
    (Or.inr rfl) (Or.inl (by decide)) (Or.inr (Or.inl rfl))).2.2.2.1

/-- Node update of `ZolaNode.run` (src/src/nodes/zola_node.py): the
reducer-annotated part plus the undeclared `zola_results` key it writes
on success.  `zola_results` is not a channel of `PropertyResearchState`,
so `mergeState` cannot consume it. -/
structure ZolaUpdate where
  upd : Update
  zola_results : Option String
  deriving DecidableEq

/-- Embedding of `ZolaNode.run`.  The call to `lookup_zola_owner` is
modelled by its outcome: `.ok res` when it returns `res`, `.error e`
when it raises an exception whose text is `e` (the `except` branch
catches it, so `run` itself never propagates).  Both branches spread
`**state` into the returned dict, so each reducer-annotated key is
echoed with its current state value unless overridden by the literal;
nothing in the graph ever writes Python `None` into `zola_owner_name`,
so the echo of that key is `s.zola_owner_name.map some`. -/
def zolaRun (s : RState) (outcome : Except String String) : ZolaUpdate :=
  match outcome with
  | .ok res =>
    { upd := { address := some s.address,
               zola_owner_name := s.zola_owner_name.map some,
               current_step := some "ZoLa search completed",
               next_steps := ["acris_search"],
               errors := s.errors },
      zola_results := some res }
  | .error e =>
    { upd := { address := some s.address,
               zola_owner_name := s.zola_owner_name.map some,
               current_step := some "ZoLa search failed",
               next_steps := ["acris_search"],
               errors := s.errors ++ ["ZoLa search error: " ++ e] },
      zola_results := none }

/-- Node update of `AcrisNode.run` (src/src/nodes/acris_node.py): the
reducer-annotated part plus the `acris_property_records` payload. -/
structure AcrisUpdate where
  upd : Update
  acris_property_records : Option String
  deriving DecidableEq

/-- Embedding of `AcrisNode.run`, with the `search_acris` call modelled
by its outcome as in `zolaRun`.  Unlike `ZolaNode.run` it returns only
the keys it names: on fault, exactly the new error string (the comment
in the source says "Just return the new error, reducer will combine")
and the `analyze_owner` routing. -/
def acrisRun (_s : RState) (outcome : Except String String) : AcrisUpdate :=
  match outcome with
  | .ok recs =>
    { upd := { address := none, zola_owner_name := none,
               current_step := some "ACRIS search completed",
               next_steps := ["process_documents"], errors := [] },
      acris_property_records := some recs }
  | .error e =>
    { upd := { address := none, zola_owner_name := none,
               current_step := some "ACRIS search failed",
               next_steps := ["analyze_owner"],
               errors := ["ACRIS search error: " ++ e] },
      acris_property_records := none }

/-- C2 (evaluation at the failing input): a faulting ACRIS step merges
exactly one new error and routes to `analyze_owner`, as the claim says;
but a faulting ZoLa step on a state that already carries one error
merges `state["errors"] + [msg]` through the `operator.add` reducer,
so the merged list duplicates the pre-existing error and gains two new
entries instead of exactly one. -/
theorem zola_fault_duplicates_errors :
    (mergeState ⟨"350 5th Ave", none, "init", [], ["prior error"]⟩
        (zolaRun ⟨"350 5th Ave", none, "init", [], ["prior error"]⟩
          (.error "boom")).upd).errors
      = ["prior error", "prior error", "ZoLa search error: boom"] ∧
    (mergeState ⟨"350 5th Ave", none, "init", [], ["prior error"]⟩
        (acrisRun ⟨"350 5th Ave", none, "init", [], ["prior error"]⟩
          (.error "boom")).upd).errors
      = ["prior error", "ACRIS search error: boom"] ∧
    (acrisRun ⟨"350 5th Ave", none, "init", [], ["prior error"]⟩
        (.error "boom")).upd.next_steps = ["analyze_owner"] := by decide

/-- C10: the ZoLa success path never writes a ZoLa-derived value into
the declared field `zola_owner_name`: it echoes the state's current
value (via `**state`) and stores the lookup result only under the
undeclared key `zola_results`; hence after the merge `zola_owner_name`
still holds its initial value for every state, and downstream readers
of `zola_owner_name` see no ZoLa-derived owner name. -/
theorem zola_success_preserves_zola_owner_name (s : RState) (res : String) :
    (zolaRun s (.ok res)).upd.zola_owner_name = s.zola_owner_name.map some ∧
    (mergeState s (zolaRun s (.ok res)).upd).zola_owner_name
      = s.zola_owner_name ∧
    (zolaRun s (.ok res)).zola_results = some res := by
  refine ⟨rfl, ?_, rfl⟩
  rcases h : s.zola_owner_name with _ | v
  · simp [mergeState, zolaRun, h]
  · by_cases hv : v = "" <;> simp [mergeState, zolaRun, h, hv]

/-!  Phone-number normalization (`PhoneNumberRefinerNode`,
src/src/nodes/phone_number_refiner_node.py).  -/

/-- `_normalize_phone`: strip every non-digit character
(`re.sub(r"\D", "", phone)`; phone strings are ASCII, so Python's digit
class coincides with `Char.isDigit`).  The Python guard `if not phone`
returns `""`, which the filter also yields on `""`. -/
def digitsOnly (s : String) : String :=
  String.mk (s.data.filter Char.isDigit)

/-- `_format_phone_number`: format as `(XXX) XXX-XXXX` for 10 digits, or
for 11 digits starting with `1`; otherwise `None`. -/
def formatPhone (n : String) : Option String :=
  let d := n.data
  if n.length = 10 then
    some ("(" ++ String.mk (d.take 3) ++ ") " ++ String.mk ((d.drop 3).take 3)
      ++ "-" ++ String.mk (d.drop 6))
  else if n.length = 11 ∧ d.headD ' ' = '1' then
    some ("(" ++ String.mk ((d.drop 1).take 3) ++ ") "
      ++ String.mk ((d.drop 4).take 3) ++ "-" ++ String.mk (d.drop 7))
  else
    none

/-- One raw phone dict from a source list: the keys read by
`_normalize_phone_data` via `.get` (absent keys are `none`). -/
structure PhoneEntry where
  number : Option String
  contact_name : Option String
  ty : Option String
  deriving DecidableEq

/-- One entry of the `normalized_data` dict (keyed by the digit
string). -/
structure PhoneRec where
  number : String
  sources : List String
  contacts : List String
  ty : String
  deriving DecidableEq

/-- Python dicts preserve insertion order, so `normalized_data` is an
association list; updating an existing key edits it in place. -/
def updKey (k : String) (f : PhoneRec → PhoneRec)
    (acc : List (String × PhoneRec)) : List (String × PhoneRec) :=
  acc.map fun p => if p.1 = k then (p.1, f p.2) else p

def hasKey (acc : List (String × PhoneRec)) (k : String) : Bool :=
  acc.any fun p => p.1 == k

/-- One iteration of the inner loop of `_normalize_phone_data`: skip
numbers that normalize to `""`; append the source name to an existing
key's `sources`, and the contact to its `contacts` only when truthy and
not already present; otherwise append a fresh entry at the end. -/
def insertPhone (src : String) (acc : List (String × PhoneRec))
    (e : PhoneEntry) : List (String × PhoneRec) :=
  let num := e.number.getD ""
  let norm := digitsOnly num
  if norm = "" then acc
  else
    let contact := e.contact_name.getD "Unknown"
    if hasKey acc norm then
      updKey norm (fun r =>
        { r with
          sources := r.sources ++ [src],
          contacts :=
            if contact ≠ "" ∧ contact ∉ r.contacts
            then r.contacts ++ [contact] else r.contacts }) acc
    else
      acc ++ [(norm,
        { number := (formatPhone norm).getD num,
          sources := [src],
          contacts := if contact ≠ "" then [contact] else [],
          ty := e.ty.getD "Unknown" })]

/-- `_normalize_phone_data`: fold the three source lists in the fixed
order PropertyShark, SkipGenie, TruePeopleSearch. -/
def normalizePhoneData (ps sg tps : List PhoneEntry) :
    List (String × PhoneRec) :=
  tps.foldl (insertPhone "TruePeopleSearch")
    (sg.foldl (insertPhone "SkipGenie")
      (ps.foldl (insertPhone "PropertyShark") []))

/-- C5: two raw numbers with the same digit string, reported by two
different sources, normalize to exactly one candidate keyed by that
digit string, whose sources list names both reporting sources. -/
theorem phone_identity_is_digit_string (raw1 raw2 : String)
    (c1 c2 t1 t2 : Option String)
    (hd : digitsOnly raw2 = digitsOnly raw1) (hne : digitsOnly raw1 ≠ "") :
    (normalizePhoneData [⟨some raw1, c1, t1⟩] [⟨some raw2, c2, t2⟩] []).map
        Prod.fst = [digitsOnly raw1] ∧
    (normalizePhoneData [⟨some raw1, c1, t1⟩] [⟨some raw2, c2, t2⟩] []).map
        (fun p => p.2.sources) = [["PropertyShark", "SkipGenie"]] := by
  constructor <;>
    simp [normalizePhoneData, insertPhone, hasKey, updKey, hd, hne]

/-- Witness for C5 at the spec's own example, `"(212) 555-0100"` against
`"2125550100"`. -/
theorem phone_identity_is_digit_string_witness :
    (normalizePhoneData [⟨some "(212) 555-0100", none, none⟩]
        [⟨some "2125550100", none, none⟩] []).map Prod.fst
      = [digitsOnly "(212) 555-0100"] :=
  (phone_identity_is_digit_string "(212) 555-0100" "2125550100"
    none none none none (by decide) (by decide)).1

/-- C6 (counterexample): feeding the same `(rawNumber, source)` pair
twice does not yield the same candidate as feeding it once, because
`sources.append(source_name)` never deduplicates: the single candidate
ends with `sources = ["PropertyShark", "PropertyShark"]`. -/
theorem phone_dedup_not_idempotent :
    normalizePhoneData [⟨some "(212) 555-0100", none, none⟩,
        ⟨some "(212) 555-0100", none, none⟩] [] [] ≠
      normalizePhoneData [⟨some "(212) 555-0100", none, none⟩] [] [] ∧
    (normalizePhoneData [⟨some "(212) 555-0100", none, none⟩,
        ⟨some "(212) 555-0100", none, none⟩] [] []).map
        (fun p => p.2.sources) = [["PropertyShark", "PropertyShark"]] := by
  decide

/-- C6 (amended): feeding the same `(rawNumber, source)` pair twice
yields the same candidate key set as feeding it once, but the
candidate itself differs: its sources list is an append without
deduplication and gains a duplicate entry; only the contacts list is
kept duplicate-free. -/
theorem phone_dedup_amended (raw : String) (c t : Option String)
    (hne : digitsOnly raw ≠ "") :
    (normalizePhoneData [⟨some raw, c, t⟩, ⟨some raw, c, t⟩] [] []).map
        Prod.fst
      = (normalizePhoneData [⟨some raw, c, t⟩] [] []).map Prod.fst ∧
    (normalizePhoneData [⟨some raw, c, t⟩, ⟨some raw, c, t⟩] [] []).map
        (fun p => p.2.sources) = [["PropertyShark", "PropertyShark"]] ∧
    ∀ p ∈ normalizePhoneData [⟨some raw, c, t⟩, ⟨some raw, c, t⟩] [] [],
      p.2.contacts.Nodup := by
  refine ⟨?_, ?_, ?_⟩ <;>
    by_cases hc : c.getD "Unknown" = "" <;>
      simp [normalizePhoneData, insertPhone, hasKey, updKey, hne, hc]

/-- Witness for the amended C6 at a concrete raw number. -/
theorem phone_dedup_amended_witness :
    (normalizePhoneData [⟨some "(212) 555-0100", none, none⟩,
        ⟨some "(212) 555-0100", none, none⟩] [] []).map
        (fun p => p.2.sources) = [["PropertyShark", "PropertyShark"]] :=
  (phone_dedup_amended "(212) 555-0100" none none (by decide)).2.1

/-!  `_simple_phone_analysis` and `PhoneNumberRefinerNode.run`.  -/

/-- One entry of `individual_owners` as read by the analysis
(`owner["name"]`). -/
structure Owner where
  name : String
  deriving DecidableEq

def lowerS (s : String) : String := String.mk (s.data.map Char.toLower)

/-- One refined phone dict produced by `_simple_phone_analysis`. -/
structure RefinedPhone where
  number : String
  contact_name : String
  confidence : String
  sources : List String
  ty : String
  deriving DecidableEq

/-- The confidence assignment of `_simple_phone_analysis` (lines
183-191): more than one source gives `"medium-high"` when PropertyShark
is among them and `"medium"` otherwise; a single source gives
`"medium"` for PropertyShark and `"low"` otherwise. -/
def confidenceOf (sources : List String) : String :=
  if 1 < sources.length then
    if "PropertyShark" ∈ sources then "medium-high" else "medium"
  else if "PropertyShark" ∈ sources then "medium"
  else "low"

/-- The best-contact selection: the first contact whose lowercased name
is a known individual owner (only attempted when both lists are
non-empty), else the first contact, else `"Unknown"`. -/
def bestContact (contacts : List String) (owners : List Owner) : String :=
  let found :=
    if owners ≠ [] ∧ contacts ≠ [] then
      contacts.find? fun c => owners.any fun o => lowerS o.name == lowerS c
    else none
  match found with
  | some c => if c = "" then contacts.headD "Unknown" else c
  | none => contacts.headD "Unknown"

def mkRefined (owners : List Owner) (r : PhoneRec) : RefinedPhone :=
  { number := r.number,
    contact_name := bestContact r.contacts owners,
    confidence := confidenceOf r.sources,
    sources := r.sources,
    ty := r.ty }

/-- `confidence_order = {"high": 0, "medium-high": 1, "medium": 2,
"low": 3}` with default 4. -/
def confOrder (c : String) : Nat :=
  if c = "high" then 0 else if c = "medium-high" then 1
  else if c = "medium" then 2 else if c = "low" then 3 else 4

/-- Stable insertion keeping earlier elements of equal key first, the
ordering contract of Python's stable `list.sort(key=...)`. -/
def insStable (e : RefinedPhone) : List RefinedPhone → List RefinedPhone
  | [] => [e]
  | x :: xs =>
    if confOrder x.confidence ≤ confOrder e.confidence
    then x :: insStable e xs
    else e :: x :: xs

def sortByConf (l : List RefinedPhone) : List RefinedPhone :=
  l.foldl (fun acc e => insStable e acc) []

/-- `phone_data_by_contact` accumulation: bucket each refined phone
under its best contact, in insertion order. -/
def addBucket (acc : List (String × List RefinedPhone)) (e : RefinedPhone) :
    List (String × List RefinedPhone) :=
  if acc.any (fun p => p.1 == e.contact_name) then
    acc.map fun p =>
      if p.1 = e.contact_name then (p.1, p.2 ++ [e]) else p
  else acc ++ [(e.contact_name, [e])]

/-- The dict returned by `_simple_phone_analysis` /
`_analyze_phone_numbers`. -/
structure AnalysisResult where
  refined_phone_numbers : List RefinedPhone
  primary_phone : String
  phone_data_by_contact : List (String × List RefinedPhone)
  notes : String
  deriving DecidableEq

/-- Embedding of `_simple_phone_analysis`: build one refined entry per
normalized candidate (in dict order), bucket them by contact, sort the
refined list by the confidence order, and pick the head's number as
primary. -/
def simplePhoneAnalysis (nd : List (String × PhoneRec))
    (owners : List Owner) : AnalysisResult :=
  let refined := nd.map fun p => mkRefined owners p.2
  let sorted := sortByConf refined
  { refined_phone_numbers := sorted,
    primary_phone := match sorted with | [] => "" | e :: _ => e.number,
    phone_data_by_contact := refined.foldl addBucket [],
    notes := "Simple analysis performed on " ++ toString refined.length
      ++ " phone numbers." }

/-- The update dict returned by `PhoneNumberRefinerNode.run` (an absent
`errors` key is the empty list for the `operator.add` channel). -/
structure RefinerUpdate where
  refined_phone_data : List (String × List RefinedPhone)
  refined_phone_numbers : List RefinedPhone
  contact_number : Option String
  refinement_notes : Option String
  current_step : String
  next_steps : List String
  errors : List String
  deriving DecidableEq

/-- Embedding of `PhoneNumberRefinerNode.run` on its non-faulting
paths.  The three phone lists and the owners list are read with
`state.get(..., [])`, so an absent key (`none`) defaults to `[]`.  When
all three lists are empty the node returns the early "skipped" update;
otherwise `_analyze_phone_numbers` runs the simple analysis when at
most 3 normalized candidates exist, and an LLM analysis — modelled by
the opaque parameter `llm` — when more do. -/
def refinerRun (llm : AnalysisResult) (ps sg tps : Option (List PhoneEntry))
    (owners : Option (List Owner)) : RefinerUpdate :=
  let psl := ps.getD []
  let sgl := sg.getD []
  let tpsl := tps.getD []
  if psl.length + sgl.length + tpsl.length = 0 then
    { refined_phone_data := [], refined_phone_numbers := [],
      contact_number := none, refinement_notes := none,
      current_step := "Phone number refinement skipped (no numbers found)",
      next_steps := ["finalize"], errors := [] }
  else
    let nd := normalizePhoneData psl sgl tpsl
    let analysis :=
      if nd.length ≤ 3 then simplePhoneAnalysis nd (owners.getD []) else llm
    { refined_phone_data := analysis.phone_data_by_contact,
      refined_phone_numbers := analysis.refined_phone_numbers,
      contact_number := some analysis.primary_phone,
      refinement_notes := some analysis.notes,
      current_step := "Phone number refinement completed",
      next_steps := ["finalize"], errors := [] }

/-- C9: with all three phone-source lists empty the refiner returns the
early "skipped" update — empty refined data, empty refined numbers, no
contact number, routing to finalize — and its update carries no errors
key, so merging it adds nothing to any errors list. -/
theorem refiner_no_numbers_is_not_error (llm : AnalysisResult)
    (ps sg tps : Option (List PhoneEntry)) (owners : Option (List Owner))
    (hps : ps.getD [] = []) (hsg : sg.getD [] = [])
    (htps : tps.getD [] = []) :
    refinerRun llm ps sg tps owners =
      { refined_phone_data := [], refined_phone_numbers := [],
        contact_number := none, refinement_notes := none,
        current_step := "Phone number refinement skipped (no numbers found)",
        next_steps := ["finalize"], errors := [] } ∧
    ∀ es : List String, es ++ (refinerRun llm ps sg tps owners).errors = es := by
  have h : refinerRun llm ps sg tps owners =
      { refined_phone_data := [], refined_phone_numbers := [],
        contact_number := none, refinement_notes := none,
        current_step := "Phone number refinement skipped (no numbers found)",
        next_steps := ["finalize"], errors := [] } := by
    simp [refinerRun, hps, hsg, htps]
  exact ⟨h, fun es => by simp [h]⟩

/-- Witness for C9 with all three source keys absent. -/
theorem refiner_no_numbers_is_not_error_witness :
    refinerRun ⟨[], "", [], ""⟩ none none none none =
      { refined_phone_data := [], refined_phone_numbers := [],
        contact_number := none, refinement_notes := none,
        current_step := "Phone number refinement skipped (no numbers found)",
        next_steps := ["finalize"], errors := [] } :=
  (refiner_no_numbers_is_not_error ⟨[], "", [], ""⟩ none none none none
    rfl rfl rfl).1

theorem mem_insStable (a e : RefinedPhone) (l : List RefinedPhone) :
    a ∈ insStable e l ↔ a = e ∨ a ∈ l := by
  induction l with
  | nil => simp [insStable]
  | cons x xs ih =>
    by_cases h : confOrder x.confidence ≤ confOrder e.confidence
    · simp only [insStable, if_pos h, List.mem_cons, ih]
      tauto
    · simp only [insStable, if_neg h, List.mem_cons]

theorem mem_foldl_insStable (a : RefinedPhone) (l : List RefinedPhone)
    (acc : List RefinedPhone) :
    a ∈ l.foldl (fun acc e => insStable e acc) acc → a ∈ acc ∨ a ∈ l := by
  induction l generalizing acc with
  | nil => exact fun h => Or.inl h
  | cons x xs ih =>
    intro h
    rcases ih (insStable x acc) h with h1 | h1
    · rcases (mem_insStable a x acc).1 h1 with h2 | h2
      · exact Or.inr (by simp [h2])
      · exact Or.inl h2
    · exact Or.inr (List.mem_cons_of_mem _ h1)

theorem confidenceOf_ladder (s : List String) :
    (2 ≤ s.length → "PropertyShark" ∉ s → confidenceOf s = "medium") ∧
    (2 ≤ s.length → "PropertyShark" ∈ s → confidenceOf s = "medium-high") ∧
    (s = ["PropertyShark"] → confidenceOf s = "medium") := by
  refine ⟨?_, ?_, ?_⟩
  · intro h1 h2
    simp [confidenceOf, Nat.lt_of_lt_of_le Nat.one_lt_two h1, h2]
  · intro h1 h2
    simp [confidenceOf, Nat.lt_of_lt_of_le Nat.one_lt_two h1, h2]
  · intro h
    subst h
    simp [confidenceOf]

/-- C4 (counterexample): run end to end on the spec's own corroborated
scenario — SkipGenie reports `"(212) 555-0100"`, TruePeopleSearch
reports `"212.555.0100"` — the single candidate is backed by two
independent non-authoritative sources, yet the refiner assigns it
confidence `"medium"`, not the claimed `"high"` (the simple analysis
never assigns `"high"` at all). -/
theorem two_source_phone_not_high :
    ((refinerRun ⟨[], "", [], ""⟩ (some [])
        (some [⟨some "(212) 555-0100", none, none⟩])
        (some [⟨some "212.555.0100", none, none⟩]) none).refined_phone_numbers.map
        fun r => (r.sources, r.confidence))
      = [(["SkipGenie", "TruePeopleSearch"], "medium")] ∧
    "medium" ≠ "high" := by decide

/-- C4 (amended): in the simple phone analysis, every candidate backed
by at least two sources none of which is PropertyShark gets confidence
`"medium"`; at least two sources including PropertyShark give
`"medium-high"`; PropertyShark alone gives `"medium"`.  (`"high"` is
never assigned by this path.) -/
theorem phone_confidence_ladder_amended (nd : List (String × PhoneRec))
    (owners : List Owner) (e : RefinedPhone)
    (he : e ∈ (simplePhoneAnalysis nd owners).refined_phone_numbers) :
    (2 ≤ e.sources.length → "PropertyShark" ∉ e.sources →
      e.confidence = "medium") ∧
    (2 ≤ e.sources.length → "PropertyShark" ∈ e.sources →
      e.confidence = "medium-high") ∧
    (e.sources = ["PropertyShark"] → e.confidence = "medium") := by
  have h1 : e ∈ nd.map fun p => mkRefined owners p.2 := by
    rcases mem_foldl_insStable e _ [] he with h | h
    · exact absurd h (List.not_mem_nil e)
    · exact h
  obtain ⟨p, hp, hpe⟩ := List.mem_map.1 h1
  have hs : e.sources = p.2.sources := by rw [← hpe]; rfl
  have hc : e.confidence = confidenceOf p.2.sources := by rw [← hpe]; rfl
  rw [hs, hc]
  exact confidenceOf_ladder p.2.sources

/-- Witness for the amended C4 on a concrete two-source candidate. -/
theorem phone_confidence_ladder_amended_witness :
    ({ number := "(212) 555-0100", contact_name := "Unknown",
       confidence := "medium",
       sources := ["SkipGenie", "TruePeopleSearch"],
       ty := "Unknown" } : RefinedPhone).confidence = "medium" :=
  (phone_confidence_ladder_amended
    [("2125550100",
      { number := "(212) 555-0100",
        sources := ["SkipGenie", "TruePeopleSearch"], contacts := [],
        ty := "Unknown" })] []
    { number := "(212) 555-0100", contact_name := "Unknown",
      confidence := "medium",
      sources := ["SkipGenie", "TruePeopleSearch"], ty := "Unknown" }
    (by decide)).1 (by decide) (by decide)

/-!  Owner-name matching (`AnalyzerNode._names_match`,
src/src/nodes/analyzer_node.py lines 336-365).  Names are `List Char`
so that the character-level Python string operations are explicit.  -/

def chars (s : String) : List Char := s.data

def pyUpper (s : List Char) : List Char := s.map Char.toUpper

/-- Python `str.strip()`: remove leading and trailing whitespace. -/
def pyStrip (s : List Char) : List Char :=
  ((s.dropWhile Char.isWhitespace).reverse.dropWhile Char.isWhitespace).reverse

/-- `xs` begins `ys` (character-wise). -/
def leadsList : List Char → List Char → Bool
  | [], _ => true
  | _ :: _, [] => false
  | a :: as, b :: bs => a == b && leadsList as bs

/-- Python `str.replace(pat, rep)`: left-to-right, non-overlapping.
The fuel is the remaining length, which bounds the recursion since a
non-empty match consumes at least one character. -/
def pyReplaceAux (pat rep : List Char) : Nat → List Char → List Char
  | 0, s => s
  | _ + 1, [] => []
  | fuel + 1, c :: rest =>
    if pat ≠ [] ∧ leadsList pat (c :: rest) = true then
      rep ++ pyReplaceAux pat rep fuel ((c :: rest).drop pat.length)
    else c :: pyReplaceAux pat rep fuel rest

def pyReplace (pat rep s : List Char) : List Char :=
  pyReplaceAux pat rep s.length s

/-- The chained normalization
`.replace(".", "").replace(",", "").replace(" LLC", "LLC").replace("L.L.C", "LLC")`
applied to an already uppercased, stripped name. -/
def legalNorm (s : List Char) : List Char :=
  pyReplace (chars "L.L.C") (chars "LLC")
    (pyReplace (chars " LLC") (chars "LLC")
      (pyReplace (chars ",") []
        (pyReplace (chars ".") [] s)))

/-- Python substring test `xs in ys` (contiguous occurrence). -/
def isSub : List Char → List Char → Bool
  | xs, [] => xs.isEmpty
  | xs, y :: ys => leadsList xs (y :: ys) || isSub xs ys

/-- Embedding of `_names_match`: empty names never match; otherwise
uppercase and strip both, then compare directly, then compare the
legal-suffix normalizations, then — only when both stripped names have
length above 5 — test substring containment either way. -/
def namesMatch (name1 name2 : List Char) : Bool :=
  if name1 = [] ∨ name2 = [] then false
  else
    let n1 := pyStrip (pyUpper name1)
    let n2 := pyStrip (pyUpper name2)
    if n1 = n2 then true
    else if legalNorm n1 = legalNorm n2 then true
    else if 5 < n1.length ∧ 5 < n2.length then isSub n1 n2 || isSub n2 n1
    else false

/-- One dynamic-programming row of the Levenshtein computation. -/
def goRow (c : Char) : List Char → List Nat → Nat → List Nat
  | [], _, _ => []
  | x :: xs, diag :: tail, left =>
    let above := tail.headD 0
    let cur := min (min (above + 1) (left + 1))
      (diag + (if x = c then 0 else 1))
    cur :: goRow c xs tail cur
  | _ :: _, [], _ => []

/-- Levenshtein edit distance, by dynamic programming over rows. -/
def editDistance (xs ys : List Char) : Nat :=
  (ys.foldl
    (fun row c => (row.headD 0 + 1) :: goRow c xs row (row.headD 0 + 1))
    (List.range (xs.length + 1))).getLastD 0

/-- Modelled from the spec: `_names_match` contains no edit-similarity
computation, so the "edit-similarity ratio meets a threshold (≥0.95)"
branch of §4.3 owner resolution step 2 is modelled from the spec's
words as a normalized Levenshtein similarity:
`(maxlen - distance) / maxlen ≥ 0.95`, written over naturals. -/
def specSimilarityAtLeast95 (n1 n2 : List Char) : Prop :=
  20 * (max n1.length n2.length - editDistance n1 n2)
    ≥ 19 * max n1.length n2.length

set_option maxRecDepth 8192 in
/-- C7 (counterexample): two 20-character names differing in one
character have edit-similarity exactly 0.95, are not substrings of each
other and have distinct normalized forms; the claim says the predicate
declares them the same owner, but `_names_match` has no edit-similarity
branch and returns `False`. -/
theorem names_match_misses_similarity :
    namesMatch (chars "AAAAAAAAAAAAAAAAAAAB")
        (chars "AAAAAAAAAAAAAAAAAAAC") = false ∧
    specSimilarityAtLeast95 (chars "AAAAAAAAAAAAAAAAAAAB")
        (chars "AAAAAAAAAAAAAAAAAAAC") := by
  constructor
  · decide
  · show 20 * (20 - editDistance _ _) ≥ 19 * 20
    decide

/-- C7 (amended): for non-empty names the matcher declares two names
the same owner exactly when their normalized forms (uppercased,
stripped, punctuation removed, legal-suffix variants collapsed) are
equal, or one uppercased stripped name is a substring of the other with
both longer than 5 characters; no edit-similarity disjunct exists.
The predicate is symmetric. -/
theorem names_match_amended (name1 name2 : List Char)
    (h1 : name1 ≠ []) (h2 : name2 ≠ []) :
    (namesMatch name1 name2 = true ↔
      (legalNorm (pyStrip (pyUpper name1)) = legalNorm (pyStrip (pyUpper name2)) ∨
        (5 < (pyStrip (pyUpper name1)).length ∧
         5 < (pyStrip (pyUpper name2)).length ∧
         (isSub (pyStrip (pyUpper name1)) (pyStrip (pyUpper name2)) = true ∨
          isSub (pyStrip (pyUpper name2)) (pyStrip (pyUpper name1)) = true)))) ∧
    namesMatch name1 name2 = namesMatch name2 name1 := by
  have key : ∀ a b : List Char, a ≠ [] → b ≠ [] →
      namesMatch a b =
        (if pyStrip (pyUpper a) = pyStrip (pyUpper b) then true
         else if legalNorm (pyStrip (pyUpper a)) = legalNorm (pyStrip (pyUpper b))
           then true
         else if 5 < (pyStrip (pyUpper a)).length ∧ 5 < (pyStrip (pyUpper b)).length
           then isSub (pyStrip (pyUpper a)) (pyStrip (pyUpper b)) ||
             isSub (pyStrip (pyUpper b)) (pyStrip (pyUpper a))
         else false) := by
    intro a b ha hb
    simp [namesMatch, ha, hb]
  constructor
  · rw [key name1 name2 h1 h2]
    by_cases he : pyStrip (pyUpper name1) = pyStrip (pyUpper name2)
    · simp [he]
    · rw [if_neg he]
      by_cases hn : legalNorm (pyStrip (pyUpper name1))
          = legalNorm (pyStrip (pyUpper name2))
      · simp [hn]
      · rw [if_neg hn]
        by_cases hl : 5 < (pyStrip (pyUpper name1)).length ∧
            5 < (pyStrip (pyUpper name2)).length
        · rw [if_pos hl]
          simp [hn, hl.1, hl.2]
        · rw [if_neg hl]
          simp only [Bool.false_eq_true, false_iff]
          rintro (h | ⟨ha, hb, _⟩)
          · exact hn h
          · exact hl ⟨ha, hb⟩
  · rw [key name1 name2 h1 h2, key name2 name1 h2 h1]
    by_cases he : pyStrip (pyUpper name1) = pyStrip (pyUpper name2)
    · simp [he]
    · have he' : ¬pyStrip (pyUpper name2) = pyStrip (pyUpper name1) :=
        fun h => he h.symm
      rw [if_neg he, if_neg he']
      by_cases hn : legalNorm (pyStrip (pyUpper name1))
          = legalNorm (pyStrip (pyUpper name2))
      · have hn' : legalNorm (pyStrip (pyUpper name2))
            = legalNorm (pyStrip (pyUpper name1)) := hn.symm
        rw [if_pos hn, if_pos hn']
      · have hn' : ¬legalNorm (pyStrip (pyUpper name2))
            = legalNorm (pyStrip (pyUpper name1)) := fun h => hn h.symm
        rw [if_neg hn, if_neg hn']
        by_cases hl : 5 < (pyStrip (pyUpper name1)).length ∧
            5 < (pyStrip (pyUpper name2)).length
        · have hl' : 5 < (pyStrip (pyUpper name2)).length ∧
              5 < (pyStrip (pyUpper name1)).length := ⟨hl.2, hl.1⟩
          rw [if_pos hl, if_pos hl']
          exact Bool.or_comm _ _
        · have hl' : ¬(5 < (pyStrip (pyUpper name2)).length ∧
              5 < (pyStrip (pyUpper name1)).length) :=
            fun h => hl ⟨h.2, h.1⟩
          rw [if_neg hl, if_neg hl']

/-- Witness for the amended C7 on legal-suffix variants of one LLC
name. -/
theorem names_match_amended_witness :
    namesMatch (chars "ACME LLC") (chars "ACME L.L.C.") = true :=
  (names_match_amended (chars "ACME LLC") (chars "ACME L.L.C.")
    (by decide) (by decide)).1.mpr (Or.inl (by decide))

end PropertyResearch
